import Mathlib

/-!
Shallow embedding of `src/modpacker.py` (Vintage-Story-Mod-Packer).

The external collaborators named by the program (HTTP registry, zip
read/write primitives, the filesystem, the interactive prompts) are
modelled at their boundary:
  * the registry is a pure function `String → List Release` (the parsed
    JSON body of `GET {MODDB_API_URL}{modid}`),
  * archives are values holding their entries,
  * a directory is the list of (relative) file names or paths it holds,
  * each `input(...)` prompt becomes an explicit `String` parameter,
  * network transfers are assumed to succeed (the `requests` failure
    paths return early without touching the directories).
Machine-level concerns (bytes on the wire, zip compression) carry no
logic in the source and are abstracted to the payload strings they move.
-/

namespace ModPacker

/-! ### Python string primitives

`str.split`, `str.strip` and `str.lower` are reimplemented structurally
over the character list of a `String` (the library versions do not reduce
inside the kernel).  All strings the program compares after `.lower()`
are ASCII. -/

/-- Python `s.split(sep)` for a one-character separator: `""` yields
`[""]`, adjacent separators yield empty fields. -/
def splitOnChar (sep : Char) : List Char → List (List Char)
  | [] => [[]]
  | c :: rest =>
    if c == sep then [] :: splitOnChar sep rest
    else
      match splitOnChar sep rest with
      | [] => [[c]]
      | g :: gs => (c :: g) :: gs

def dropLeadingWS : List Char → List Char
  | [] => []
  | c :: rest => if c.isWhitespace then dropLeadingWS rest else c :: rest

/-- Python `s.strip()`: leading and trailing whitespace removed. -/
def pyStrip (s : List Char) : List Char :=
  (dropLeadingWS (dropLeadingWS s).reverse).reverse

/-- Python `s.lower()` on ASCII text. -/
def pyLower (s : List Char) : List Char :=
  s.map Char.toLower

/-- Is the first list a prefix of the second? -/
def isPrefixList : List Char → List Char → Bool
  | [], _ => true
  | _ :: _, [] => false
  | a :: as, b :: bs => a == b && isPrefixList as bs

/-- Python `s[s.index(marker) + len(marker):]` when `marker in s`,
`none` otherwise (for a nonempty marker): the characters after the first
occurrence of `marker`. -/
def afterMarker (marker : List Char) : List Char → Option (List Char)
  | [] => none
  | c :: rest =>
    if isPrefixList marker (c :: rest) then some ((c :: rest).drop marker.length)
    else afterMarker marker rest

/-! ### Registry releases and version resolution (`download_mod`, lines 40-93) -/

/-- One element of `mod_data['mod']['releases']` as used by the code:
`releaseid` (int), `modversion` (string), `mainfile` (path-or-URL string). -/
structure Release where
  releaseid : Nat
  modversion : String
  mainfile : String
deriving DecidableEq, Repr

/-- The sort key relation of `releases.sort(key=lambda r: r['releaseid'], reverse=True)`:
descending by `releaseid`. -/
def releaseGE (a b : Release) : Prop := b.releaseid ≤ a.releaseid

instance : DecidableRel releaseGE := fun a b => Nat.decLe b.releaseid a.releaseid

instance : IsTotal Release releaseGE := ⟨fun a b => (Nat.le_total b.releaseid a.releaseid)⟩

instance : IsTrans Release releaseGE := ⟨fun _ _ _ h1 h2 => Nat.le_trans h2 h1⟩

/-- `releases.sort(key=lambda r: r['releaseid'], reverse=True)` (line 58).
Python's sort is stable; `List.insertionSort` with a total preorder is
stable as well (each element is inserted in front of later, equal-key
elements only). -/
def sortReleases (rs : List Release) : List Release :=
  rs.insertionSort releaseGE

/-- Result of the release-selection part of `download_mod` (lines 60-71).
`fellBack` records whether the "version ... not found. Attempting to use
latest version." message of line 69 was printed, i.e. whether the
substitution was reported. -/
structure Resolved where
  release : Release
  fellBack : Bool
deriving DecidableEq, Repr

/-- Lines 53-71 of `download_mod`: the pure resolve step.

The source checks `not mod_data['mod']['releases']` before sorting and
returns `False` (modelled as `none`) on an empty list; sorting preserves
emptiness, so matching on the sorted list is equivalent.  `if mod_version:`
is Python truthiness on a string-or-None argument: the search only runs
when `mod_version` is a *nonempty* string, and the fallback message of
line 69 is printed only inside that branch. -/
def resolveRelease (releases : List Release) (mod_version : Option String) : Option Resolved :=
  match sortReleases releases with
  | [] => none
  | first :: rest =>
    match mod_version with
    | some v =>
      if v = "" then
        some { release := first, fellBack := false }
      else
        match (first :: rest).find? (fun r => r.modversion == v) with
        | some r => some { release := r, fellBack := false }
        | none => some { release := first, fellBack := true }
    | none => some { release := first, fellBack := false }

/-- `mod_file_name = mod_release['mainfile'].split('/')[-1]` (line 75):
the on-disk name of the downloaded binary is the basename of the
release's `mainfile`. -/
def targetFileName (r : Release) : String :=
  String.mk ((splitOnChar '/' r.mainfile.data).getLastD [])

/-- What one `download_mod` call did to the mods directory. -/
inductive DownloadOutcome where
  | noReleases
  | skipped (fileName : String)
  | downloaded (fileName : String)
deriving DecidableEq, Repr

/-- `download_mod(modid, mod_version)` (lines 40-93) acting on the mods
directory, modelled as the list of file names it holds.  The network
transfer of lines 84-87 is assumed to succeed; its failure path (line
91-93) returns without touching the directory. -/
def download_mod (registry : String → List Release) (modid : String)
    (mod_version : Option String) (dir : List String) : DownloadOutcome × List String :=
  match resolveRelease (registry modid) mod_version with
  | none => (.noReleases, dir)
  | some res =>
    let name := targetFileName res.release
    if name ∈ dir then (.skipped name, dir)
    else (.downloaded name, dir ++ [name])

/-- The per-mod download loop of `install_mod_pack` (lines 139-144) and
`install_mods_from_log` (lines 310-314), linearized: the source submits
one `download_mod` task per entry to a thread pool; tasks write to
per-release-distinct names in the shared directory, and this sequential
fold is their observable composition. -/
def installPass (registry : String → List Release) :
    List (String × Option String) → List String → List DownloadOutcome × List String
  | [], dir => ([], dir)
  | m :: rest, dir =>
    let step := download_mod registry m.1 m.2 dir
    let restResult := installPass registry rest step.2
    (step.1 :: restResult.1, restResult.2)

/-! ### JSON values and the pack manifest (`pack.json`) -/

/-- The fragment of JSON that `pack.json` and `modinfo.json` use: strings,
arrays, objects and `null`.  `json.dumps`/`json.load` of the Python `json`
module are external primitives; their composition is the identity on this
fragment, so serialization is modelled at the value level. -/
inductive Json where
  | str (s : String)
  | arr (xs : List Json)
  | obj (fields : List (String × Json))
  | null

/-- Python `d[k]` on a parsed JSON object (`json.load` keeps the last
binding of a duplicated key; parsed dicts have distinct keys, so first
lookup is equivalent). -/
def jsonLookup (fields : List (String × Json)) (k : String) : Option Json :=
  (fields.find? (fun p => p.1 == k)).map Prod.snd

/-- The `pack_data` dictionary built by `_create_mod_pack_internal`
(lines 215-219): name, `mods` as (modid, version) pairs, `configs` as
relative path strings. -/
structure Manifest where
  name : String
  mods : List (String × String)
  configs : List String
deriving DecidableEq, Repr

/-- Lines 215-219: the JSON value dumped into the `pack.json` entry. -/
def serializeManifest (m : Manifest) : Json :=
  .obj [("name", .str m.name),
        ("mods", .arr (m.mods.map (fun p => .obj [("name", .str p.1), ("version", .str p.2)]))),
        ("configs", .arr (m.configs.map .str))]

/-- A Python list comprehension whose body can raise: left to right,
the first failing element aborts the whole comprehension. -/
def mapOption (f : α → Option β) : List α → Option (List β)
  | [] => some []
  | a :: l =>
    match f a, mapOption f l with
    | some b, some bs => some (b :: bs)
    | _, _ => none

def parseString : Json → Option String
  | .str s => some s
  | _ => none

/-- Reads one element of `pack_data["mods"]` back into a (modid, version)
pair, as the spec's `readManifest` recovers a `PackManifest`. -/
def parseModEntry (j : Json) : Option (String × String) :=
  match j with
  | .obj fields =>
    match jsonLookup fields "name", jsonLookup fields "version" with
    | some (.str n), some (.str v) => some (n, v)
    | _, _ => none
  | _ => none

/-- The spec's `readManifest` view of a `pack.json` value: the three
fields that `_create_mod_pack_internal` writes and `install_mod_pack`
reads. -/
def parseManifest (j : Json) : Option Manifest :=
  match j with
  | .obj fields =>
    match jsonLookup fields "name", jsonLookup fields "mods", jsonLookup fields "configs" with
    | some (.str n), some (.arr mods), some (.arr cfgs) =>
      match mapOption parseModEntry mods, mapOption parseString cfgs with
      | some ms, some cs => some { name := n, mods := ms, configs := cs }
      | _, _ => none
    | _, _, _ => none
  | _ => none

/-- A mod pack zip: the `pack.json` entry (as its parsed JSON value;
`none` models a missing entry or one whose contents `json.load` cannot
decode — both abort `install_mod_pack` at lines 119-125 before any other
step) plus the config-file entries (relative path, contents). -/
structure PackArchive where
  manifestEntry : Option Json
  configEntries : List (String × String)

/-- Lines 222-230: `zipfile.ZipFile(path, 'w')` truncates, `pack.json` is
written first, then every config entry under its relative path. -/
def writeArchive (m : Manifest) (configFiles : List (String × String)) : PackArchive :=
  { manifestEntry := some (serializeManifest m), configEntries := configFiles }

/-- Lines 119-122 followed by the field reads: open the archive's
`pack.json` and recover the manifest it denotes. -/
def readManifest (a : PackArchive) : Option Manifest :=
  a.manifestEntry.bind parseManifest

/-! ### Reading the manifest inside `install_mod_pack` -/

/-- One element of the line-137 comprehension
`(mod["name"], mod["version"])`: a missing `"name"` or `"version"` key
raises `KeyError` (`none`); a JSON `null` version is Python `None`. -/
def extractMod (j : Json) : Option (String × Option String) :=
  match j with
  | .obj fields =>
    match jsonLookup fields "name", jsonLookup fields "version" with
    | some (.str n), some (.str v) => some (n, some v)
    | some (.str n), some .null => some (n, none)
    | _, _ => none
  | _ => none

/-- Line 137: `mods_to_download = [(mod["name"], mod["version"]) for mod in modpack_data["mods"]]`. -/
def extractModsToDownload (mods : List Json) : Option (List (String × Option String)) :=
  mapOption extractMod mods

/-- `modpack_data["mods"]` (line 137): missing key, or a value the
comprehension cannot iterate over as objects, raises. -/
def getMods (packJson : Json) : Option (List Json) :=
  match packJson with
  | .obj fields =>
    match jsonLookup fields "mods" with
    | some (.arr mods) => some mods
    | _ => none
  | _ => none

/-- `modpack_data["configs"]` (lines 147, 157): missing key raises; each
element is used as a relative path string. -/
def getConfigs (packJson : Json) : Option (List String) :=
  match packJson with
  | .obj fields =>
    match jsonLookup fields "configs" with
    | some (.arr cfgs) => mapOption parseString cfgs
    | _ => none
  | _ => none

/-! ### Path semantics and config extraction (lines 147-162) -/

/-- `Path(config)` on a relative posix-style string: pathlib collapses
repeated slashes and single-dot segments but keeps `..` segments. -/
def pathSegments (p : String) : List String :=
  ((splitOnChar '/' p.data).map String.mk).filter (fun s => s ≠ "" ∧ s ≠ ".")

/-- What the operating system does with the `..` segments of a path when
the file is actually opened for writing (line 161): each `..` cancels the
preceding segment. -/
def resolveDots (segs : List String) : List String :=
  segs.foldl (fun acc s => if s = ".." then acc.dropLast else acc ++ [s]) []

/-- The absolute location, after OS resolution, at which line 158-161
writes the entry listed under `config`: `CONFIG_DIR / Path(config)`. -/
def extractTarget (configRoot : List String) (config : String) : List String :=
  resolveDots (configRoot ++ pathSegments config)

/-- The mods directory together with every file the config-extraction
step can reach, keyed by absolute resolved path. -/
structure Store where
  mods : List String
  configFs : List (List String × String)
deriving DecidableEq, Repr

/-- Lines 158-162 for one entry: create parents, open the target and copy
the archive entry's bytes into it (overwriting an existing file). -/
def writeConfigFile (fs : List (List String × String)) (configRoot : List String)
    (config : String) (contents : String) : List (List String × String) :=
  let target := extractTarget configRoot config
  (fs.filter (fun e => e.1 ≠ target)) ++ [(target, contents)]

/-- The loop of lines 157-162.  `zipf.open(config)` on a name absent from
the archive raises `KeyError` (flag `true`), stopping the loop; entries
already written stay written. -/
def extractConfigsLoop (entries : List (String × String)) (configRoot : List String)
    (configs : List String) (fs : List (List String × String)) :
    List (List String × String) × Bool :=
  match configs with
  | [] => (fs, false)
  | c :: rest =>
    match (entries.find? (fun e => e.1 == c)).map Prod.snd with
    | none => (fs, true)
    | some contents => extractConfigsLoop entries configRoot rest (writeConfigFile fs configRoot c contents)

/-! ### `install_mod_pack` (lines 96-164) -/

/-- How an `install_mod_pack` run ends.  `invalidPack` is the caught
`KeyError` of lines 123-125; the two `...KeyError` outcomes are uncaught
exceptions (missing manifest fields at line 137 or 147, or a config entry
name absent from the archive at line 160) that propagate to the top-level
handler. -/
inductive InstallOutcome where
  | invalidPack
  | manifestKeyError
  | configKeyError
  | completed
deriving DecidableEq, Repr

/-- `install_mod_pack` (lines 96-164) from the point where an archive has
been chosen.  `overwriteAnswer` and `configAnswer` are the two `input()`
replies (lines 127 and 148); the source compares their
`.strip().lower()` against `'overwrite'`.  The menu listing and pack
selection of lines 97-116 touch nothing and are elided. -/
def install_mod_pack (registry : String → List Release) (archive : PackArchive)
    (overwriteAnswer configAnswer : String) (configRoot : List String)
    (store : Store) : InstallOutcome × Store :=
  match archive.manifestEntry with
  | none => (.invalidPack, store)
  | some packJson =>
    let store1 :=
      if pyLower (pyStrip overwriteAnswer.data) == "overwrite".data then
        { store with mods := [] }
      else store
    match getMods packJson with
    | none => (.manifestKeyError, store1)
    | some modsJson =>
      match extractModsToDownload modsJson with
      | none => (.manifestKeyError, store1)
      | some modsToDownload =>
        let pass := installPass registry modsToDownload store1.mods
        let store2 := { store1 with mods := pass.2 }
        match getConfigs packJson with
        | none => (.configKeyError, store2)
        | some configs =>
          if configs.isEmpty then (.completed, store2)
          else if pyLower (pyStrip configAnswer.data) == "overwrite".data then
            let cleared :=
              store2.configFs.filter (fun e => !(List.isPrefixOf configRoot e.1))
            let ext := extractConfigsLoop archive.configEntries configRoot configs cleared
            (if ext.2 then .configKeyError else .completed, { store2 with configFs := ext.1 })
          else (.completed, store2)

/-! ### `extract_mod_info` and pack creation (lines 26-38, 190-230) -/

/-- `extract_mod_info` (lines 26-38).  `modInfoOf` stands for the zip
primitive: opening the binary and reading its lowercase-normalized
`modinfo.json` dictionary, restricted to the two keys the code uses;
`none` is any of the caught structural failures (bad zip, missing entry,
malformed JSON). -/
def extract_mod_info (modInfoOf : String → Option (Option String × Option String))
    (modFile : String) : String × String :=
  match modInfoOf modFile with
  | some info => (info.1.getD "unknown_modid", info.2.getD "unknown_version")
  | none => ("unknown_modid", "unknown_version")

/-- `_create_mod_pack_internal` (lines 190-230): collect every mod
binary's identity, optionally the config files, and write the archive.
When `includeConfigs` is false the config directory's contents are not
consulted at all, so only the flag is passed through here. -/
def create_mod_pack_internal (modInfoOf : String → Option (Option String × Option String))
    (modsDirFiles : List String) (configFiles : List (String × String))
    (name : String) (includeConfigs : Bool) : PackArchive :=
  let mods := modsDirFiles.map (extract_mod_info modInfoOf)
  let configs := if includeConfigs then configFiles.map Prod.fst else []
  writeArchive { name := name, mods := mods, configs := configs }
    (if includeConfigs then configFiles else [])

/-! ### Log parsing (`install_mods_from_log`, lines 269-295) -/

def LOG_MARKER : String := "Mods, sorted by dependency:"

/-- Lines 275-280 for one matching line: text after the marker, stripped,
split on commas, each token stripped, empty tokens dropped. -/
def parseLogTokens (modsPart : List Char) : List String :=
  ((splitOnChar ',' (pyStrip modsPart)).map (fun t => String.mk (pyStrip t))).filter
    (fun m => m ≠ "")

/-- Lines 271-281: the first line containing the marker decides the
result (the loop breaks there even when its token list is empty). -/
def findModsInLog (lines : List String) : List String :=
  match lines with
  | [] => []
  | l :: rest =>
    match afterMarker LOG_MARKER.data l.data with
    | some modsPart => parseLogTokens modsPart
    | none => findModsInLog rest

/-- Line 288. -/
def VANILLA_MODS : List String := ["game", "creative", "survival"]

/-- Line 289: `[m for m in found_mods if m.lower() not in vanilla_mods]`. -/
def filterVanilla (mods : List String) : List String :=
  mods.filter (fun m => !(VANILLA_MODS.contains (String.mk (pyLower m.data))))

/-! ### Backup and the log-import flow (lines 18-23, 233-316) -/

/-- State touched by the log-import flow: whether the ModPacks folder
exists, its pack files, and the mods directory. -/
structure LogImportState where
  modpacksDirExists : Bool
  modpacks : List (String × PackArchive)
  mods : List String

/-- Externally visible actions of the flow, in program order. -/
inductive Event where
  | backupWritten (packFile : String)
  | modsCleared
  | modDownloaded (fileName : String)
deriving DecidableEq, Repr

def eventOfOutcome : DownloadOutcome → Option Event
  | .downloaded n => some (.modDownloaded n)
  | _ => none

/-- `backup_installed_mods` (lines 233-248).  `ensure_modpacks_folder`
(lines 18-23) creates a missing ModPacks folder and returns `False`, in
which case the function returns *without building any backup*; otherwise
the timestamped pack is built with `ask_for_configs=False`, so the config
directory is excluded regardless of its contents (the empty list passed
to the builder is provably never read under that flag). -/
def backup_installed_mods (modInfoOf : String → Option (Option String × Option String))
    (timestamp : String) (s : LogImportState) : LogImportState × List Event :=
  if s.modpacksDirExists then
    let backupName := "backup_" ++ timestamp
    let archive := create_mod_pack_internal modInfoOf s.mods [] backupName false
    ({ s with modpacks := s.modpacks ++ [(backupName ++ ".zip", archive)] },
     [Event.backupWritten (backupName ++ ".zip")])
  else
    ({ s with modpacksDirExists := true }, [])

/-- `install_mods_from_log` (lines 250-316).  `logFile` is `none` when
the prompted path is not a file (line 265), otherwise the decoded lines;
`confirmAnswer` is the line-298 reply, compared via `.strip().lower()`
against `'y'`.  The clearing of lines 304-306 and the latest-version
download loop of lines 310-314 run only after every guard passes. -/
def install_mods_from_log (registry : String → List Release)
    (modInfoOf : String → Option (Option String × Option String))
    (timestamp : String) (logFile : Option (List String)) (confirmAnswer : String)
    (s : LogImportState) : LogImportState × List Event :=
  let br := backup_installed_mods modInfoOf timestamp s
  match logFile with
  | none => br
  | some lines =>
    let found_mods := findModsInLog lines
    if found_mods.isEmpty then br
    else
      let filtered_mods := filterVanilla found_mods
      if filtered_mods.isEmpty then br
      else if pyLower (pyStrip confirmAnswer.data) == "y".data then
        let pass := installPass registry (filtered_mods.map (fun m => (m, none))) []
        ({ br.1 with mods := pass.2 },
         br.2 ++ [Event.modsCleared] ++ pass.1.filterMap eventOfOutcome)
      else br

/-! ### Lemmas about release sorting and resolution -/

theorem sortReleases_perm (rs : List Release) : List.Perm (sortReleases rs) rs :=
  List.perm_insertionSort releaseGE rs

theorem mem_sortReleases {rs : List Release} {x : Release} :
    x ∈ sortReleases rs ↔ x ∈ rs :=
  List.mem_insertionSort releaseGE

theorem sortReleases_sorted (rs : List Release) :
    List.Sorted releaseGE (sortReleases rs) :=
  List.sorted_insertionSort releaseGE rs

theorem sortReleases_eq_nil {rs : List Release} : sortReleases rs = [] ↔ rs = [] := by
  constructor
  · intro h
    have p := sortReleases_perm rs
    rw [h] at p
    exact p.symm.eq_nil
  · intro h
    subst h
    rfl

theorem sortReleases_head_mem {rs : List Release} {first : Release} {rest : List Release}
    (h : sortReleases rs = first :: rest) : first ∈ rs := by
  refine mem_sortReleases.mp ?_
  rw [h]
  exact List.mem_cons_self first rest

theorem sortReleases_head_max {rs : List Release} {first : Release} {rest : List Release}
    (h : sortReleases rs = first :: rest) :
    ∀ x ∈ rs, x.releaseid ≤ first.releaseid := by
  intro x hx
  have hx' : x ∈ first :: rest := by
    rw [← h]
    exact mem_sortReleases.mpr hx
  have hs := sortReleases_sorted rs
  rw [h] at hs
  rcases List.mem_cons.mp hx' with rfl | hmem
  · exact Nat.le_refl _
  · exact (List.sorted_cons.mp hs).1 x hmem

theorem resolveRelease_none_eq {rs : List Release} {first : Release} {rest : List Release}
    (h : sortReleases rs = first :: rest) :
    resolveRelease rs none = some { release := first, fellBack := false } := by
  unfold resolveRelease
  rw [h]

theorem resolveRelease_isSome {rs : List Release} (mv : Option String) (h : rs ≠ []) :
    ∃ res, resolveRelease rs mv = some res := by
  cases hs : sortReleases rs with
  | nil => exact absurd (sortReleases_eq_nil.mp hs) h
  | cons first rest =>
    unfold resolveRelease
    rw [hs]
    cases mv with
    | none => exact ⟨_, rfl⟩
    | some v =>
      by_cases hv : v = ""
      · simp [hv]
      · cases hf : (first :: rest).find? (fun r => r.modversion == v) with
        | none => simp [hv, hf]
        | some r => simp [hv, hf]

theorem resolveRelease_none_max (releases : List Release) (h : releases ≠ []) :
    ∃ res, resolveRelease releases none = some res ∧
      res.release ∈ releases ∧
      ∀ r ∈ releases, r.releaseid ≤ res.release.releaseid := by
  cases hs : sortReleases releases with
  | nil => exact absurd (sortReleases_eq_nil.mp hs) h
  | cons first rest =>
    exact ⟨{ release := first, fellBack := false }, resolveRelease_none_eq hs,
      sortReleases_head_mem hs, sortReleases_head_max hs⟩

/-! ### Claim theorems -/

/-- C1: for every mod identifier whose registry release list is
non-empty, resolving with no wanted version (`download_mod` with
`mod_version=None`) selects the release whose `releaseid` is the maximum
over the whole release list. -/
theorem C1_resolve_none_max (releases : List Release) (h : releases ≠ []) :
    ∃ res, resolveRelease releases none = some res ∧
      res.release ∈ releases ∧
      ∀ r ∈ releases, r.releaseid ≤ res.release.releaseid :=
  resolveRelease_none_max releases h

theorem C1_witness :
    ∃ res,
      resolveRelease [Release.mk 5 "1.0.0" "files/a.zip", Release.mk 6 "2.0.0" "files/b.zip"]
          none = some res ∧
      res.release ∈ [Release.mk 5 "1.0.0" "files/a.zip", Release.mk 6 "2.0.0" "files/b.zip"] ∧
      ∀ r ∈ [Release.mk 5 "1.0.0" "files/a.zip", Release.mk 6 "2.0.0" "files/b.zip"],
        r.releaseid ≤ res.release.releaseid :=
  C1_resolve_none_max
    [Release.mk 5 "1.0.0" "files/a.zip", Release.mk 6 "2.0.0" "files/b.zip"] (by decide)

/-- C2 counterexample: the wanted version `""` matches no release's
`modversion` (the only release is version `"1.0.0"`), the resolution does
fall back to the newest release, but `fellBack = false`: the line-69
substitution message is not printed, because Python's `if mod_version:`
treats the empty string as absent.  So the claim's "reports the
substitution to the caller" fails at this input. -/
theorem C2_counterexample :
    (∀ r ∈ [Release.mk 5 "1.0.0" "files/a.zip"], r.modversion ≠ "") ∧
    resolveRelease [Release.mk 5 "1.0.0" "files/a.zip"] (some "") =
      some { release := Release.mk 5 "1.0.0" "files/a.zip", fellBack := false } := by
  decide

/-- C2 (amended): for every (id, version) pair where the wanted version
is a *nonempty* string matching no release's `modversion`, resolution
falls back to the maximum-`releaseid` release, reports the substitution
(`fellBack = true`), and never raises (the resolve step is total and
returns a release). -/
theorem C2_fallback_reported (releases : List Release) (v : String)
    (hne : releases ≠ []) (hv : v ≠ "")
    (hnomatch : ∀ r ∈ releases, r.modversion ≠ v) :
    ∃ res, resolveRelease releases (some v) = some res ∧
      res.fellBack = true ∧
      res.release ∈ releases ∧
      ∀ r ∈ releases, r.releaseid ≤ res.release.releaseid := by
  cases hs : sortReleases releases with
  | nil => exact absurd (sortReleases_eq_nil.mp hs) hne
  | cons first rest =>
    have hfind : (first :: rest).find? (fun r => r.modversion == v) = none := by
      rw [List.find?_eq_none]
      intro x hx
      simp only [beq_iff_eq]
      refine hnomatch x (mem_sortReleases.mp ?_)
      rw [hs]
      exact hx
    refine ⟨{ release := first, fellBack := true }, ?_, rfl,
      sortReleases_head_mem hs, sortReleases_head_max hs⟩
    unfold resolveRelease
    rw [hs]
    simp [hv, hfind]

theorem C2_witness :
    ∃ res,
      resolveRelease [Release.mk 5 "1.0.0" "files/a.zip", Release.mk 6 "2.0.0" "files/b.zip"]
          (some "9.9.9") = some res ∧
      res.fellBack = true ∧
      res.release ∈ [Release.mk 5 "1.0.0" "files/a.zip", Release.mk 6 "2.0.0" "files/b.zip"] ∧
      ∀ r ∈ [Release.mk 5 "1.0.0" "files/a.zip", Release.mk 6 "2.0.0" "files/b.zip"],
        r.releaseid ≤ res.release.releaseid :=
  C2_fallback_reported
    [Release.mk 5 "1.0.0" "files/a.zip", Release.mk 6 "2.0.0" "files/b.zip"]
    "9.9.9" (by decide) (by decide) (by decide)

/-- C5 counterexample: for the resolved release with `modversion "2.0.0"``
and `mainfile "files/xyz.zip"` requested for mod id `"abc"`, the binary is
persisted as `xyz.zip` — the basename of `mainfile` — and not under the
deterministic name `abc_2.0.0.zip` claimed by the spec; the
already-present check (line 79) likewise tests `xyz.zip`. -/
theorem C5_counterexample :
    resolveRelease [Release.mk 6 "2.0.0" "files/xyz.zip"] none =
      some { release := Release.mk 6 "2.0.0" "files/xyz.zip", fellBack := false } ∧
    download_mod (fun _ => [Release.mk 6 "2.0.0" "files/xyz.zip"]) "abc" none [] =
      (DownloadOutcome.downloaded "xyz.zip", ["xyz.zip"]) ∧
    targetFileName (Release.mk 6 "2.0.0" "files/xyz.zip") ≠ "abc" ++ "_" ++ "2.0.0" ++ ".zip" := by
  decide

/-- C5 (amended): for every successfully resolved release, the mod binary
is persisted on disk under the basename of the release's `mainfile` (the
last `/`-separated component), and the already-present check that skips
redundant downloads tests existence of exactly that file name. -/
theorem C5_basename_naming (registry : String → List Release) (modid : String)
    (mv : Option String) (dir : List String) (res : Resolved)
    (h : resolveRelease (registry modid) mv = some res) :
    (targetFileName res.release ∈ dir →
      download_mod registry modid mv dir =
        (DownloadOutcome.skipped (targetFileName res.release), dir)) ∧
    (targetFileName res.release ∉ dir →
      download_mod registry modid mv dir =
        (DownloadOutcome.downloaded (targetFileName res.release),
          dir ++ [targetFileName res.release])) := by
  unfold download_mod
  rw [h]
  constructor <;> intro hmem <;> simp [hmem]

theorem C5_witness :
    (targetFileName (Release.mk 6 "2.0.0" "files/xyz.zip") ∈ ["xyz.zip"] →
      download_mod (fun _ => [Release.mk 6 "2.0.0" "files/xyz.zip"]) "abc" none ["xyz.zip"] =
        (DownloadOutcome.skipped (targetFileName (Release.mk 6 "2.0.0" "files/xyz.zip")),
          ["xyz.zip"])) ∧
    (targetFileName (Release.mk 6 "2.0.0" "files/xyz.zip") ∉ ["xyz.zip"] →
      download_mod (fun _ => [Release.mk 6 "2.0.0" "files/xyz.zip"]) "abc" none ["xyz.zip"] =
        (DownloadOutcome.downloaded (targetFileName (Release.mk 6 "2.0.0" "files/xyz.zip")),
          ["xyz.zip"] ++ [targetFileName (Release.mk 6 "2.0.0" "files/xyz.zip")])) :=
  C5_basename_naming (fun _ => [Release.mk 6 "2.0.0" "files/xyz.zip"]) "abc" none ["xyz.zip"]
    { release := Release.mk 6 "2.0.0" "files/xyz.zip", fellBack := false } (by decide)

/-! ### Lemmas about the download pass -/

theorem download_mod_mono {registry : String → List Release} {modid : String}
    {mv : Option String} {dir : List String} {a : String} (ha : a ∈ dir) :
    a ∈ (download_mod registry modid mv dir).2 := by
  unfold download_mod
  cases hr : resolveRelease (registry modid) mv with
  | none => simpa using ha
  | some res =>
    by_cases hmem : targetFileName res.release ∈ dir
    · simpa [hmem] using ha
    · simp only [hmem, if_false, List.mem_append]
      exact Or.inl ha

theorem download_mod_target {registry : String → List Release} {modid : String}
    {mv : Option String} {dir : List String} {res : Resolved}
    (h : resolveRelease (registry modid) mv = some res) :
    targetFileName res.release ∈ (download_mod registry modid mv dir).2 := by
  unfold download_mod
  rw [h]
  by_cases hmem : targetFileName res.release ∈ dir <;> simp [hmem]

theorem installPass_mono {registry : String → List Release}
    {mods : List (String × Option String)} {dir : List String} {a : String}
    (ha : a ∈ dir) : a ∈ (installPass registry mods dir).2 := by
  induction mods generalizing dir with
  | nil => simpa [installPass] using ha
  | cons m rest ih =>
    simp only [installPass]
    exact ih (download_mod_mono ha)

theorem installPass_resolved_mem {registry : String → List Release}
    {mods : List (String × Option String)} {dir : List String}
    {m : String × Option String} (hm : m ∈ mods) {res : Resolved}
    (h : resolveRelease (registry m.1) m.2 = some res) :
    targetFileName res.release ∈ (installPass registry mods dir).2 := by
  induction mods generalizing dir with
  | nil => cases hm
  | cons m0 rest ih =>
    rcases List.mem_cons.mp hm with rfl | hm'
    · simp only [installPass]
      exact installPass_mono (download_mod_target h)
    · simp only [installPass]
      exact ih hm'

theorem installPass_all_present {registry : String → List Release}
    {mods : List (String × Option String)} {dir : List String}
    (h : ∀ m ∈ mods, ∀ res, resolveRelease (registry m.1) m.2 = some res →
      targetFileName res.release ∈ dir) :
    (installPass registry mods dir).2 = dir ∧
    ∀ out ∈ (installPass registry mods dir).1, ∀ n, out ≠ DownloadOutcome.downloaded n := by
  induction mods generalizing dir with
  | nil => simp [installPass]
  | cons m rest ih =>
    have hstep : (download_mod registry m.1 m.2 dir).2 = dir ∧
        ∀ n, (download_mod registry m.1 m.2 dir).1 ≠ DownloadOutcome.downloaded n := by
      unfold download_mod
      cases hr : resolveRelease (registry m.1) m.2 with
      | none => simp
      | some res => simp [h m (List.mem_cons_self m rest) res hr]
    have ihr := ih (fun m' hm' res hres => h m' (List.mem_cons_of_mem m hm') res hres)
    simp only [installPass, hstep.1]
    refine ⟨ihr.1, ?_⟩
    intro out hout n
    rcases List.mem_cons.mp hout with rfl | hmem
    · exact hstep.2 n
    · exact ihr.2 out hmem n

/-- C6: installing the same manifest a second time with
`overwriteMods=false` performs zero redundant downloads on the second
pass: for every mod in the manifest (all of whose registry release lists
are non-empty), the target file already exists after the first install,
so the second pass's per-mod step never reaches the download branch. -/
theorem C6_second_pass_no_downloads (registry : String → List Release)
    (mods : List (String × Option String)) (dir : List String)
    (h : ∀ m ∈ mods, registry m.1 ≠ []) :
    (∀ m ∈ mods, ∃ res, resolveRelease (registry m.1) m.2 = some res ∧
      targetFileName res.release ∈ (installPass registry mods dir).2) ∧
    ∀ out ∈ (installPass registry mods (installPass registry mods dir).2).1,
      ∀ n, out ≠ DownloadOutcome.downloaded n := by
  have hfirst : ∀ m ∈ mods, ∃ res, resolveRelease (registry m.1) m.2 = some res ∧
      targetFileName res.release ∈ (installPass registry mods dir).2 := by
    intro m hm
    obtain ⟨res, hres⟩ := resolveRelease_isSome m.2 (h m hm)
    exact ⟨res, hres, installPass_resolved_mem hm hres⟩
  refine ⟨hfirst, ?_⟩
  have hall : ∀ m ∈ mods, ∀ res, resolveRelease (registry m.1) m.2 = some res →
      targetFileName res.release ∈ (installPass registry mods dir).2 := by
    intro m hm res hres
    obtain ⟨res', hres', hmem⟩ := hfirst m hm
    rw [hres] at hres'
    cases Option.some.inj hres'
    exact hmem
  exact (installPass_all_present hall).2

theorem C6_witness :
    (∀ m ∈ [("abc", some "1.0.0"), ("xyz", (none : Option String))],
      ∃ res,
        resolveRelease
          ((fun i => if i = "abc" then [Release.mk 5 "1.0.0" "files/a.zip"]
            else [Release.mk 7 "3.0.0" "files/z.zip"]) m.1) m.2 = some res ∧
        targetFileName res.release ∈
          (installPass
            (fun i => if i = "abc" then [Release.mk 5 "1.0.0" "files/a.zip"]
              else [Release.mk 7 "3.0.0" "files/z.zip"])
            [("abc", some "1.0.0"), ("xyz", (none : Option String))] []).2) ∧
    ∀ out ∈ (installPass
        (fun i => if i = "abc" then [Release.mk 5 "1.0.0" "files/a.zip"]
          else [Release.mk 7 "3.0.0" "files/z.zip"])
        [("abc", some "1.0.0"), ("xyz", (none : Option String))]
        (installPass
          (fun i => if i = "abc" then [Release.mk 5 "1.0.0" "files/a.zip"]
            else [Release.mk 7 "3.0.0" "files/z.zip"])
          [("abc", some "1.0.0"), ("xyz", (none : Option String))] []).2).1,
      ∀ n, out ≠ DownloadOutcome.downloaded n :=
  C6_second_pass_no_downloads
    (fun i => if i = "abc" then [Release.mk 5 "1.0.0" "files/a.zip"]
      else [Release.mk 7 "3.0.0" "files/z.zip"])
    [("abc", some "1.0.0"), ("xyz", (none : Option String))] [] (by decide)

/-- C3: the claim says extraction rejects or ignores relative config
paths containing `..`; the code has no such check.  Installing a pack
whose manifest lists the config path `"../evil.txt"` (with config policy
Overwrite) completes and writes the entry to
`CONFIG_DIR/../evil.txt`, which the OS resolves to a location *outside*
the config root — the extracted path is not prefixed by the root. -/
theorem C3_traversal_escapes_root :
    extractTarget ["VintagestoryData", "ModConfig"] "../evil.txt" =
      ["VintagestoryData", "evil.txt"] ∧
    List.isPrefixOf ["VintagestoryData", "ModConfig"] ["VintagestoryData", "evil.txt"] = false ∧
    install_mod_pack (fun _ => [])
      (writeArchive { name := "pack", mods := [], configs := ["../evil.txt"] }
        [("../evil.txt", "payload")])
      "merge" "overwrite" ["VintagestoryData", "ModConfig"]
      { mods := [], configFs := [] } =
    (InstallOutcome.completed,
      { mods := [], configFs := [(["VintagestoryData", "evil.txt"], "payload")] }) := by
  decide

/-- C4: for every pack archive that lacks a readable manifest entry
(`pack.json` missing, or its contents undecodable), `install_mod_pack`
rejects the archive and returns before performing any mutation of the
mods or config directories — the store is returned unchanged. -/
theorem C4_invalid_archive_no_mutation (registry : String → List Release)
    (archive : PackArchive) (overwriteAnswer configAnswer : String)
    (configRoot : List String) (store : Store)
    (h : archive.manifestEntry = none) :
    install_mod_pack registry archive overwriteAnswer configAnswer configRoot store =
      (InstallOutcome.invalidPack, store) := by
  unfold install_mod_pack
  rw [h]

theorem C4_witness :
    install_mod_pack (fun _ => [])
      { manifestEntry := none, configEntries := [("a.cfg", "data")] }
      "overwrite" "overwrite" ["VintagestoryData", "ModConfig"]
      { mods := ["keep.zip"], configFs := [(["VintagestoryData", "ModConfig", "a.cfg"], "old")] } =
    (InstallOutcome.invalidPack,
      { mods := ["keep.zip"], configFs := [(["VintagestoryData", "ModConfig", "a.cfg"], "old")] }) :=
  C4_invalid_archive_no_mutation (fun _ => [])
    { manifestEntry := none, configEntries := [("a.cfg", "data")] }
    "overwrite" "overwrite" ["VintagestoryData", "ModConfig"]
    { mods := ["keep.zip"], configFs := [(["VintagestoryData", "ModConfig", "a.cfg"], "old")] }
    rfl

/-- C7 counterexample: a manifest whose single mod entry lacks the
`version` field entirely.  The registry has releases for `"abc"`, yet the
line-137 access `mod["version"]` raises `KeyError`, so the install aborts
instead of proceeding with the latest release — nothing is installed. -/
theorem C7_counterexample :
    install_mod_pack
      (fun _ => [Release.mk 6 "2.0.0" "files/abc_2.0.0.zip",
                 Release.mk 5 "1.0.0" "files/abc_1.0.0.zip"])
      { manifestEntry := some (.obj [("name", .str "p"),
          ("mods", .arr [.obj [("name", .str "abc")]]), ("configs", .arr [])]),
        configEntries := [] }
      "merge" "ignore" ["VintagestoryData", "ModConfig"] { mods := [], configFs := [] } =
    (InstallOutcome.manifestKeyError, { mods := [], configFs := [] }) := by
  decide

/-- The pack archive whose manifest holds one mod entry with a JSON
`null` version, as `json.dumps` writes a Python `None`. -/
def singleModNullArchive (packName modName : String) : PackArchive :=
  { manifestEntry := some (.obj [("name", .str packName),
      ("mods", .arr [.obj [("name", .str modName), ("version", .null)]]),
      ("configs", .arr [])]),
    configEntries := [] }

theorem getMods_singleModNull (packName modName : String) :
    getMods (.obj [("name", .str packName),
      ("mods", .arr [.obj [("name", .str modName), ("version", .null)]]),
      ("configs", .arr [])]) =
    some [.obj [("name", .str modName), ("version", .null)]] := rfl

theorem extractMods_singleModNull (modName : String) :
    extractModsToDownload [.obj [("name", .str modName), ("version", .null)]] =
      some [(modName, none)] := rfl

/-- C7 (amended): a manifest mod entry whose `version` field is JSON
`null` (Python `None`) is treated as "latest": installation proceeds
without error and the file installed for that mod is the basename of the
highest-`releaseid` release's `mainfile`.  An entry missing the `version`
key altogether instead raises `KeyError` and aborts the install. -/
theorem C7_null_version_latest (registry : String → List Release)
    (packName modName : String) (configRoot : List String) (store : Store)
    (h : registry modName ≠ []) :
    ∃ res, resolveRelease (registry modName) none = some res ∧
      res.release ∈ registry modName ∧
      (∀ r ∈ registry modName, r.releaseid ≤ res.release.releaseid) ∧
      install_mod_pack registry (singleModNullArchive packName modName) "merge" "ignore"
          configRoot store =
        (InstallOutcome.completed,
          { store with mods := (installPass registry [(modName, none)] store.mods).2 }) ∧
      targetFileName res.release ∈ (installPass registry [(modName, none)] store.mods).2 := by
  obtain ⟨res, hres, hmem, hmax⟩ := resolveRelease_none_max (registry modName) h
  refine ⟨res, hres, hmem, hmax, ?_, installPass_resolved_mem (List.mem_cons_self _ _) hres⟩
  have hmerge : (pyLower (pyStrip ("merge" : String).data) ==
      ("overwrite" : String).data) = false := by decide
  unfold install_mod_pack singleModNullArchive
  simp only [getMods_singleModNull, extractMods_singleModNull, hmerge, if_false]
  rfl

theorem C7_witness :
    ∃ res,
      resolveRelease ((fun _ => [Release.mk 6 "2.0.0" "files/abc_2.0.0.zip",
          Release.mk 5 "1.0.0" "files/abc_1.0.0.zip"]) "abc") none = some res ∧
      res.release ∈ (fun _ => [Release.mk 6 "2.0.0" "files/abc_2.0.0.zip",
          Release.mk 5 "1.0.0" "files/abc_1.0.0.zip"]) "abc" ∧
      (∀ r ∈ (fun _ => [Release.mk 6 "2.0.0" "files/abc_2.0.0.zip",
          Release.mk 5 "1.0.0" "files/abc_1.0.0.zip"]) "abc",
        r.releaseid ≤ res.release.releaseid) ∧
      install_mod_pack
          (fun _ => [Release.mk 6 "2.0.0" "files/abc_2.0.0.zip",
            Release.mk 5 "1.0.0" "files/abc_1.0.0.zip"])
          (singleModNullArchive "p" "abc") "merge" "ignore"
          ["VintagestoryData", "ModConfig"] { mods := [], configFs := [] } =
        (InstallOutcome.completed,
          { mods := (installPass
              (fun _ => [Release.mk 6 "2.0.0" "files/abc_2.0.0.zip",
                Release.mk 5 "1.0.0" "files/abc_1.0.0.zip"]) [("abc", none)] []).2,
            configFs := [] }) ∧
      targetFileName res.release ∈
        (installPass
          (fun _ => [Release.mk 6 "2.0.0" "files/abc_2.0.0.zip",
            Release.mk 5 "1.0.0" "files/abc_1.0.0.zip"]) [("abc", none)] []).2 :=
  C7_null_version_latest
    (fun _ => [Release.mk 6 "2.0.0" "files/abc_2.0.0.zip",
      Release.mk 5 "1.0.0" "files/abc_1.0.0.zip"])
    "p" "abc" ["VintagestoryData", "ModConfig"] { mods := [], configFs := [] } (by decide)

/-- C8: log parsing takes the first line containing the marker, splits
the text after the marker on commas, trims each token, and filters the
vanilla identifiers case-insensitively; on the scenario line the filtered
list is exactly `["foo", "bar"]`, and whenever the filtered list is empty
the import returns right after the backup step, with no further effect on
the state and no further events. -/
theorem C8_log_parsing :
    filterVanilla (findModsInLog
      ["12:00 [Notification] Mods, sorted by dependency: game, creative, survival, foo, bar"]) =
      ["foo", "bar"] ∧
    ∀ (registry : String → List Release)
      (modInfoOf : String → Option (Option String × Option String))
      (timestamp : String) (lines : List String) (confirmAnswer : String)
      (s : LogImportState),
      filterVanilla (findModsInLog lines) = [] →
      install_mods_from_log registry modInfoOf timestamp (some lines) confirmAnswer s =
        backup_installed_mods modInfoOf timestamp s := by
  constructor
  · decide
  · intro registry modInfoOf timestamp lines confirmAnswer s hempty
    unfold install_mods_from_log
    by_cases hfound : (findModsInLog lines).isEmpty
    · simp [hfound]
    · simp [hfound, hempty]

theorem C8_witness :
    install_mods_from_log (fun _ => []) (fun _ => none) "20260101_000000"
        (some ["server started", "no marker in this file"]) "y"
        { modpacksDirExists := true, modpacks := [], mods := ["m.zip"] } =
      backup_installed_mods (fun _ => none) "20260101_000000"
        { modpacksDirExists := true, modpacks := [], mods := ["m.zip"] } :=
  C8_log_parsing.2 (fun _ => []) (fun _ => none) "20260101_000000"
    ["server started", "no marker in this file"] "y"
    { modpacksDirExists := true, modpacks := [], mods := ["m.zip"] } (by decide)

/-- C9: the claim says the mods directory is never cleared before the
timestamped backup pack has been written.  When the ModPacks folder does
not yet exist, `ensure_modpacks_folder` creates it and returns `False`,
so `backup_installed_mods` returns *without writing any backup*; the
flow then proceeds, and on a log with a marker line plus confirmation
it clears the mods directory.  The event trace of that run is exactly
`[modsCleared]` — a clear with no preceding backup — the old mod file is
gone and no pack was written. -/
theorem C9_clear_without_backup :
    (install_mods_from_log (fun _ => []) (fun _ => none) "20260101_120000"
      (some ["12:00 [Notification] Mods, sorted by dependency: game, foo"]) "y"
      { modpacksDirExists := false, modpacks := [], mods := ["oldmod.zip"] }).2 =
      [Event.modsCleared] ∧
    (install_mods_from_log (fun _ => []) (fun _ => none) "20260101_120000"
      (some ["12:00 [Notification] Mods, sorted by dependency: game, foo"]) "y"
      { modpacksDirExists := false, modpacks := [], mods := ["oldmod.zip"] }).1.mods = [] ∧
    (install_mods_from_log (fun _ => []) (fun _ => none) "20260101_120000"
      (some ["12:00 [Notification] Mods, sorted by dependency: game, foo"]) "y"
      { modpacksDirExists := false, modpacks := [], mods := ["oldmod.zip"] }).1.modpacks.length
      = 0 := by
  decide

theorem parseModEntry_serialized (p : String × String) :
    parseModEntry (Json.obj [("name", Json.str p.1), ("version", Json.str p.2)]) =
      some p := rfl

theorem mapOption_parseModEntry (mods : List (String × String)) :
    mapOption parseModEntry
      (mods.map (fun p => Json.obj [("name", Json.str p.1), ("version", Json.str p.2)])) =
      some mods := by
  induction mods with
  | nil => rfl
  | cons p rest ih =>
    simp only [List.map_cons, mapOption, ih, parseModEntry_serialized]

theorem mapOption_parseString (cfgs : List String) :
    mapOption parseString (cfgs.map Json.str) = some cfgs := by
  induction cfgs with
  | nil => rfl
  | cons c rest ih =>
    simp only [List.map_cons, mapOption, parseString, ih]

theorem parseManifest_serialize (n : String) (mods : List (String × String))
    (cfgs : List String) :
    parseManifest (serializeManifest { name := n, mods := mods, configs := cfgs }) =
      match mapOption parseModEntry
          (mods.map (fun p => Json.obj [("name", Json.str p.1), ("version", Json.str p.2)])),
        mapOption parseString (cfgs.map Json.str) with
      | some ms, some cs => some { name := n, mods := ms, configs := cs }
      | _, _ => none := rfl

/-- C10: for every manifest (name, mods list, configs list), writing a
pack archive and then reading its manifest back from the same archive
yields a manifest equal to the input. -/
theorem C10_manifest_roundtrip (m : Manifest) (configFiles : List (String × String)) :
    readManifest (writeArchive m configFiles) = some m := by
  obtain ⟨n, mods, cfgs⟩ := m
  show parseManifest (serializeManifest { name := n, mods := mods, configs := cfgs }) =
    some { name := n, mods := mods, configs := cfgs }
  rw [parseManifest_serialize, mapOption_parseModEntry, mapOption_parseString]

end ModPacker
